import Mathlib

/-!
Verification of the libbitcoin transaction model (src/src/chain/transaction.cpp)
and the payment-address equality/hash projection
(src/include/bitcoin/bitcoin/wallet/payment_address.hpp).

Machine integers are modelled as Nat with explicit reductions modulo 2^w where
the code truncates; size_t is taken at its 64-bit width. The binary cursor
(istream_reader / ostream_writer) is an external collaborator of this core, so
it is modelled from the spec's interface contract: a read either yields a value
and the unconsumed rest of the byte list, or fails (Option). Input and Output
are likewise external: their wire codecs enter the transaction-level functions
as parameters, and the theorems assume exactly the interface contract the spec
states for them.
-/

namespace libbitcoin

/-- Modelled from the spec: maximum value of a 32-bit unsigned integer
(constants.hpp is not under src/). -/
def max_uint32 : Nat := 4294967295

/-- Modelled from the spec: maximum value of a 64-bit unsigned integer
(constants.hpp is not under src/). -/
def max_uint64 : Nat := 18446744073709551615

/-- Modelled from the spec: maximum value of size_t, taken at the 64-bit
platform width (constants.hpp is not under src/). -/
def max_size_t : Nat := max_uint64

/-- Modelled from the spec: the locktime-threshold constant separating
block-height locktimes from timestamp locktimes (constants.hpp is not under
src/; the protocol value is 500000000). -/
def locktime_threshold : Nat := 500000000

/-- Modelled from the spec: the maximum input sequence sentinel, the largest
32-bit value (constants.hpp is not under src/). -/
def max_input_sequence : Nat := max_uint32

/-- Modelled from the spec: lower protocol-fixed bound on a coinbase script's
serialized size (constants.hpp is not under src/; the protocol value is 2). -/
def min_coinbase_size : Nat := 2

/-- Modelled from the spec: upper protocol-fixed bound on a coinbase script's
serialized size (constants.hpp is not under src/; the protocol value is 100). -/
def max_coinbase_size : Nat := 100

/-! ## Binary cursor (modelled from the spec, section 6) -/

/-- Little-endian byte rendering of the low 8*k bits of a number: the writer
side of a fixed-width little-endian field. -/
def toLE : Nat → Nat → List Nat
  | 0, _ => []
  | k + 1, n => n % 256 :: toLE k (n / 256)

/-- Reader of a fixed-width little-endian field: k bytes from the front of the
list, failing when fewer remain. -/
def readLE : Nat → List Nat → Option (Nat × List Nat)
  | 0, s => some (0, s)
  | _ + 1, [] => none
  | k + 1, b :: s =>
    match readLE k s with
    | none => none
    | some (v, rest) => some (b + 256 * v, rest)

/-- Modelled from the spec: the cursor's 4-byte little-endian write. -/
def write_4_bytes_little_endian (n : Nat) : List Nat := toLE 4 n

/-- Modelled from the spec: the cursor's 4-byte little-endian read. -/
def read_4_bytes_little_endian (s : List Nat) : Option (Nat × List Nat) :=
  readLE 4 s

/-- Modelled from the spec: byte length of the compact-size encoding of a
value (1, 3, 5 or 9 bytes). -/
def variable_uint_size (v : Nat) : Nat :=
  if v < 253 then 1
  else if v ≤ 65535 then 3
  else if v ≤ max_uint32 then 5
  else 9

/-- Modelled from the spec: the cursor's compact-size write — a single byte
for small values, a marker byte (253/254/255) followed by a little-endian
payload of 2, 4 or 8 bytes otherwise. -/
def write_variable_uint_little_endian (v : Nat) : List Nat :=
  if v < 253 then [v]
  else if v ≤ 65535 then 253 :: toLE 2 v
  else if v ≤ max_uint32 then 254 :: toLE 4 v
  else 255 :: toLE 8 v

/-- Modelled from the spec: the cursor's compact-size read — the first byte
determines whether the value is that byte or the 2-, 4- or 8-byte
little-endian payload that follows. -/
def read_variable_uint_little_endian : List Nat → Option (Nat × List Nat)
  | [] => none
  | b :: s =>
    if b < 253 then some (b, s)
    else if b = 253 then readLE 2 s
    else if b = 254 then readLE 4 s
    else readLE 8 s

/-! ## External entities at their interface boundary (spec, sections 3 and 6) -/

/-- Modelled from the spec: the script subsystem is external and is consumed
only through serialized_size(bool) and signature_operations(bool); a script is
modelled by its observable count at each flag value. -/
structure Script where
  sigops_plain : Nat
  sigops_accurate : Nat
  size_plain : Nat
  size_prefixed : Nat
deriving DecidableEq, Repr

/-- Modelled from the spec: the script's signature-operation count at the
given flag. -/
def Script.signature_operations (s : Script) (accurate : Bool) : Nat :=
  if accurate then s.sigops_accurate else s.sigops_plain

/-- Modelled from the spec: the script's serialized byte length at the given
flag. -/
def Script.serialized_size (s : Script) (prefixed : Bool) : Nat :=
  if prefixed then s.size_prefixed else s.size_plain

/-- Modelled from the spec: a previous-output reference, consumed here only
through its is_null() test. -/
structure OutPoint where
  null_reference : Bool
deriving DecidableEq, Repr

/-- Modelled from the spec: whether the reference is the null reference
reserved for coinbase inputs. -/
def OutPoint.is_null (p : OutPoint) : Bool := p.null_reference

/-- Modelled from the spec: an input exposes previous_output, sequence and
script. -/
structure Input where
  previous_output : OutPoint
  sequence : Nat
  script : Script
deriving DecidableEq, Repr

/-- Modelled from the spec: an input reports itself final when its sequence
number is at the maximum value sentinel. -/
def Input.is_final (i : Input) : Bool := i.sequence == max_input_sequence

/-- Modelled from the spec: an output exposes value and script. -/
structure Output where
  value : Nat
  script : Script
deriving DecidableEq, Repr

/-! ## The transaction (src/src/chain/transaction.cpp) -/

/-- The transaction: version, locktime, inputs, outputs, plus the cached hash
(hash_, a shared pointer that is empty until first computed) and the cached
signature-operation count (sigops_). -/
structure Transaction where
  version : Nat
  locktime : Nat
  inputs : List Input
  outputs : List Output
  hash_ : Option (List Nat)
  sigops_ : Nat
deriving DecidableEq, Repr

/-- transaction::is_valid: nonzero version, nonzero locktime, or at least one
input or output. -/
def Transaction.is_valid (tx : Transaction) : Bool :=
  tx.version != 0 || tx.locktime != 0 || !tx.inputs.isEmpty || !tx.outputs.isEmpty

/-- transaction::reset: zero the scalar fields, clear both sequences, zero the
sigops cache and drop the cached hash. -/
def Transaction.reset (_tx : Transaction) : Transaction :=
  { version := 0, locktime := 0, inputs := [], outputs := [], hash_ := none,
    sigops_ := 0 }

/-- transaction::is_coinbase: exactly one input whose previous-output
reference is null. The subscript inputs[0] is modelled by the checked access
inputs[0]?, whose none branch stands for an out-of-bounds read. -/
def Transaction.is_coinbase (tx : Transaction) : Bool :=
  tx.inputs.length == 1 &&
    (match tx.inputs[0]? with
     | some first => first.previous_output.is_null
     | none => false)

/-- transaction::is_invalid_coinbase: coinbase whose input-0 script size falls
outside the protocol bounds. The subscript inputs[0] is modelled by the
checked access inputs[0]?. -/
def Transaction.is_invalid_coinbase (tx : Transaction) : Bool :=
  if !tx.is_coinbase then false
  else
    match tx.inputs[0]? with
    | some first =>
      let script_size := first.script.serialized_size false
      decide (script_size < min_coinbase_size) ||
        decide (script_size > max_coinbase_size)
    | none => false

/-- transaction::is_coinbase with the bounds check made observable: the value
is none exactly when the inputs[0] access would be out of bounds. -/
def Transaction.is_coinbase_checked (tx : Transaction) : Option Bool :=
  if tx.inputs.length = 1 then
    (tx.inputs[0]?).map fun first => first.previous_output.is_null
  else some false

/-- transaction::is_invalid_coinbase with the bounds check made observable:
none exactly when some inputs[0] access would be out of bounds. -/
def Transaction.is_invalid_coinbase_checked (tx : Transaction) : Option Bool :=
  match tx.is_coinbase_checked with
  | none => none
  | some cb =>
    if !cb then some false
    else
      (tx.inputs[0]?).map fun first =>
        let script_size := first.script.serialized_size false
        decide (script_size < min_coinbase_size) ||
          decide (script_size > max_coinbase_size)

/-- transaction::is_invalid_non_coinbase: not coinbase, but some input has a
null previous-output reference. -/
def Transaction.is_invalid_non_coinbase (tx : Transaction) : Bool :=
  if tx.is_coinbase then false
  else tx.inputs.any fun i => i.previous_output.is_null

/-- transaction::is_final: locktime zero is always final; otherwise the basis
is block_time unless locktime is below the threshold, in which case it is
block_height truncated by the cast to uint32_t; locktime strictly below the
basis is final; otherwise every input must report itself final. -/
def Transaction.is_final (tx : Transaction) (block_height block_time : Nat) :
    Bool :=
  if tx.locktime == 0 then true
  else
    let max_locktime :=
      if tx.locktime < locktime_threshold then block_height % 4294967296
      else block_time
    if tx.locktime < max_locktime then true
    else tx.inputs.all Input.is_final

/-- Modelled from the spec: is_final exactly as the spec sentence states it —
the comparison basis for a below-threshold locktime is block_height itself
(the full 64-bit value), with no truncation. -/
def Transaction.is_final_spec (tx : Transaction) (block_height block_time : Nat) :
    Bool :=
  if tx.locktime == 0 then true
  else
    let basis :=
      if tx.locktime < locktime_threshold then block_height else block_time
    if tx.locktime < basis then true
    else tx.inputs.all Input.is_final

/-- transaction::total_output_value: left fold of the saturating accumulator
over the outputs, starting from zero. -/
def Transaction.total_output_value (tx : Transaction) : Nat :=
  tx.outputs.foldl
    (fun total o =>
      if total ≥ max_uint64 - o.value then max_uint64 else total + o.value)
    0

/-- transaction::signature_operations as written: when the cache is nonzero
return it; otherwise run the two saturating accumulations seeded from the
cache — and discard both results (std::accumulate returns the fold value,
which the source never assigns to sigops_) — then return the cache. -/
def Transaction.signature_operations (tx : Transaction) : Nat :=
  if tx.sigops_ != 0 then tx.sigops_
  else
    let _in_total := tx.inputs.foldl
      (fun total i =>
        let count := i.script.signature_operations false
        if total ≥ max_size_t - count then max_size_t else total + count)
      tx.sigops_
    let _out_total := tx.outputs.foldl
      (fun total o =>
        let count := o.script.signature_operations false
        if total ≥ max_size_t - count then max_size_t else total + count)
      tx.sigops_
    tx.sigops_

/-- Modelled from the spec: signature_operations as the spec sentence states
it — the saturating sum of script.signature_operations(false) over all input
scripts and all output scripts. -/
def Transaction.signature_operations_spec (tx : Transaction) : Nat :=
  let in_total := tx.inputs.foldl
    (fun total i =>
      let count := i.script.signature_operations false
      if total ≥ max_size_t - count then max_size_t else total + count)
    0
  tx.outputs.foldl
    (fun total o =>
      let count := o.script.signature_operations false
      if total ≥ max_size_t - count then max_size_t else total + count)
    in_total

/-- transaction::operator=(transaction&&): overwrite version, locktime, inputs
and outputs from the source; hash_ and sigops_ are not touched. -/
def Transaction.move_assign (tx other : Transaction) : Transaction :=
  { tx with
    version := other.version
    locktime := other.locktime
    inputs := other.inputs
    outputs := other.outputs }

/-! ## Serialization (src/src/chain/transaction.cpp) -/

/-- Concatenation of the serializations of a sequence's elements, in order:
the write loop over inputs or outputs. -/
def concat_map {α : Type} (f : α → List Nat) : List α → List Nat
  | [] => []
  | a :: as => f a ++ concat_map f as

/-- Sum of a per-element size over a sequence: the size loop over inputs or
outputs. -/
def sum_by {α : Type} (f : α → Nat) : List α → Nat
  | [] => 0
  | a :: as => f a + sum_by f as

/-- transaction::to_data: version, compact-size input count, each input in
order, compact-size output count, each output in order, locktime. The element
serializers are the external Input/Output wire codecs, passed as parameters. -/
def Transaction.to_data (sI : Input → List Nat) (sO : Output → List Nat)
    (tx : Transaction) : List Nat :=
  write_4_bytes_little_endian tx.version ++
    (write_variable_uint_little_endian tx.inputs.length ++
      (concat_map sI tx.inputs ++
        (write_variable_uint_little_endian tx.outputs.length ++
          (concat_map sO tx.outputs ++
            write_4_bytes_little_endian tx.locktime))))

/-- transaction::serialized_size: 8 fixed bytes plus compact-size overhead for
each count plus each element's own serialized_size, the latter passed as
parameters for the external Input/Output entities. -/
def Transaction.serialized_size (szI : Input → Nat) (szO : Output → Nat)
    (tx : Transaction) : Nat :=
  8 + variable_uint_size tx.inputs.length + sum_by szI tx.inputs +
    variable_uint_size tx.outputs.length + sum_by szO tx.outputs

/-- The deserialization loop over a resized sequence: parse exactly n elements
with the element parser, short-circuiting on the first failure. -/
def parse_count {α : Type} (p : List Nat → Option (α × List Nat)) :
    Nat → List Nat → Option (List α × List Nat)
  | 0, s => some ([], s)
  | n + 1, s =>
    match p s with
    | none => none
    | some (a, s1) =>
      match parse_count p n s1 with
      | none => none
      | some (as, s2) => some (a :: as, s2)

/-- transaction::from_data(reader): version, input count and inputs, output
count and outputs, locktime, each step failing when the cursor fails; a
successful parse yields the populated transaction (cached hash dropped and
sigops cache zero, as reset() at entry left them) and the unconsumed rest. -/
def Transaction.from_data_reader (pI : List Nat → Option (Input × List Nat))
    (pO : List Nat → Option (Output × List Nat)) (s : List Nat) :
    Option (Transaction × List Nat) :=
  match read_4_bytes_little_endian s with
  | none => none
  | some (ver, s1) =>
    match read_variable_uint_little_endian s1 with
    | none => none
    | some (tx_in_count, s2) =>
      match parse_count pI tx_in_count s2 with
      | none => none
      | some (ins, s3) =>
        match read_variable_uint_little_endian s3 with
        | none => none
        | some (tx_out_count, s4) =>
          match parse_count pO tx_out_count s4 with
          | none => none
          | some (outs, s5) =>
            match read_4_bytes_little_endian s5 with
            | none => none
            | some (lt, s6) =>
              some ({ version := ver, locktime := lt, inputs := ins,
                      outputs := outs, hash_ := none, sigops_ := 0 }, s6)

/-- transaction::from_data(data_chunk): reset, parse, and on any failure reset
again — the boolean result paired with the final state of the object. -/
def Transaction.from_data (pI : List Nat → Option (Input × List Nat))
    (pO : List Nat → Option (Output × List Nat)) (tx : Transaction)
    (data : List Nat) : Bool × Transaction :=
  match Transaction.from_data_reader pI pO data with
  | some (parsed, _) => (true, parsed)
  | none => (false, tx.reset)

/-- transaction::hash(): return the cached digest when present; otherwise
apply the double-hash primitive (external, passed as a parameter) to the
canonical serialization, store it in the cache and return it. The state after
the call is returned alongside the digest. -/
def Transaction.hash (bitcoin_hash : List Nat → List Nat)
    (sI : Input → List Nat) (sO : Output → List Nat) (tx : Transaction) :
    List Nat × Transaction :=
  match tx.hash_ with
  | some h => (h, tx)
  | none =>
    let h := bitcoin_hash (tx.to_data sI sO)
    (h, { tx with hash_ := some h })

end libbitcoin

namespace libbitcoin.wallet

/-- The payment address: validity flag, version byte and 20-byte short hash,
the short hash modelled as the list of its bytes
(src/include/bitcoin/bitcoin/wallet/payment_address.hpp). -/
structure PaymentAddress where
  valid_ : Bool
  version_ : Nat
  hash_ : List Nat
deriving DecidableEq, Repr

/-- payment_address::version accessor. -/
def PaymentAddress.version (a : PaymentAddress) : Nat := a.version_

/-- payment_address::hash accessor. -/
def PaymentAddress.hash (a : PaymentAddress) : List Nat := a.hash_

/-- Modelled from the spec: operator==(payment_address, payment_address) is
declared in the header but its implementation is not under src/; the spec
states that equality reduces an address to its (version, hash) projection. -/
def payment_address_eq (left right : PaymentAddress) : Bool :=
  left.version == right.version && left.hash == right.hash

/-- The buffer the std::hash adapter builds: one byte of address-version
followed by the address-hash bytes (payment_address.hpp lines 109-124). -/
def std_hash_buffer (address : PaymentAddress) : List Nat :=
  address.version :: address.hash

/-- The std::hash adapter's key: the external string hasher (passed as a
parameter) applied to the [version | hash] buffer. -/
def std_hash_key (string_hash : List Nat → Nat)
    (address : PaymentAddress) : Nat :=
  string_hash (std_hash_buffer address)

end libbitcoin.wallet

namespace libbitcoin

/-! ## Concrete instantiations used by witnesses and counterexamples -/

/-- The all-default transaction, as the default constructor and reset() leave
it. -/
def default_transaction : Transaction :=
  { version := 0, locktime := 0, inputs := [], outputs := [], hash_ := none,
    sigops_ := 0 }

/-- A concrete demonstration wire codec for inputs, used to instantiate the
external Input collaborator in witnesses: six fields in order. -/
def demo_input_to_data (i : Input) : List Nat :=
  [if i.previous_output.is_null then 1 else 0, i.sequence,
   i.script.sigops_plain, i.script.sigops_accurate,
   i.script.size_plain, i.script.size_prefixed]

/-- The parser side of the demonstration input codec. -/
def demo_input_from_data : List Nat → Option (Input × List Nat)
  | b :: seq :: c1 :: c2 :: c3 :: c4 :: rest =>
    some ({ previous_output := { null_reference := b == 1 }, sequence := seq,
            script := { sigops_plain := c1, sigops_accurate := c2,
                        size_plain := c3, size_prefixed := c4 } }, rest)
  | _ => none

/-- The serialized_size side of the demonstration input codec. -/
def demo_input_size (i : Input) : Nat := (demo_input_to_data i).length

/-- A concrete demonstration wire codec for outputs: five fields in order. -/
def demo_output_to_data (o : Output) : List Nat :=
  [o.value, o.script.sigops_plain, o.script.sigops_accurate,
   o.script.size_plain, o.script.size_prefixed]

/-- The parser side of the demonstration output codec. -/
def demo_output_from_data : List Nat → Option (Output × List Nat)
  | v :: c1 :: c2 :: c3 :: c4 :: rest =>
    some ({ value := v,
            script := { sigops_plain := c1, sigops_accurate := c2,
                        size_plain := c3, size_prefixed := c4 } }, rest)
  | _ => none

/-- The serialized_size side of the demonstration output codec. -/
def demo_output_size (o : Output) : Nat := (demo_output_to_data o).length

/-- A script reporting one signature operation in the non-context-sensitive
counting mode. -/
def one_sigop_script : Script :=
  { sigops_plain := 1, sigops_accurate := 1, size_plain := 10,
    size_prefixed := 11 }

/-- A transaction with a single input whose script reports one signature
operation: the failing input for the signature_operations claim. -/
def c1_transaction : Transaction :=
  { version := 1, locktime := 0,
    inputs := [{ previous_output := { null_reference := true }, sequence := 0,
                 script := one_sigop_script }],
    outputs := [], hash_ := none, sigops_ := 0 }

/-- A nontrivial transaction with one input and one output, used to witness
the serialization round trip. -/
def c2_transaction : Transaction :=
  { version := 1, locktime := 2,
    inputs := [{ previous_output := { null_reference := true }, sequence := 3,
                 script := { sigops_plain := 4, sigops_accurate := 5,
                             size_plain := 6, size_prefixed := 7 } }],
    outputs := [{ value := 8,
                  script := { sigops_plain := 9, sigops_accurate := 10,
                              size_plain := 11, size_prefixed := 12 } }],
    hash_ := none, sigops_ := 0 }

/-- Ten bytes of a canonical empty transaction followed by one trailing
garbage byte: from_data succeeds on it without consuming the final byte. -/
def c2_extra_bytes : List Nat := [0, 0, 0, 0, 0, 0, 0, 0, 0, 0, 7]

/-- A transaction with locktime 1 (below the threshold) and one non-final
input, exhibiting the uint32_t truncation of block_height in is_final. -/
def c4_transaction : Transaction :=
  { version := 0, locktime := 1,
    inputs := [{ previous_output := { null_reference := false }, sequence := 0,
                 script := one_sigop_script }],
    outputs := [], hash_ := none, sigops_ := 0 }

/-- A transaction whose output values sum beyond the 64-bit maximum. -/
def c6_transaction : Transaction :=
  { version := 0, locktime := 0, inputs := [],
    outputs := [{ value := 18446744073709551615,
                  script := one_sigop_script },
                { value := 5, script := one_sigop_script }],
    hash_ := none, sigops_ := 0 }

end libbitcoin

namespace libbitcoin

/-! ## Helper lemmas -/

/-- The saturating left fold over output values computes the clamped sum: as
long as the accumulator and every value fit in 64 bits, the fold equals the
minimum of the exact sum and the 64-bit maximum. -/
theorem sat_foldl_min (l : List Output) (acc : Nat) (hacc : acc ≤ max_uint64)
    (hb : ∀ o ∈ l, o.value ≤ max_uint64) :
    l.foldl
      (fun total o =>
        if total ≥ max_uint64 - o.value then max_uint64 else total + o.value)
      acc = min (acc + sum_by Output.value l) max_uint64 := by
  induction l generalizing acc with
  | nil =>
    simp [sum_by]
    omega
  | cons o l ih =>
    have ho : o.value ≤ max_uint64 := hb o (List.mem_cons_self o l)
    have hb' : ∀ x ∈ l, x.value ≤ max_uint64 := fun x hx => hb x (List.mem_cons_of_mem o hx)
    simp only [List.foldl_cons, sum_by]
    by_cases hsat : acc ≥ max_uint64 - o.value
    · rw [if_pos hsat, ih max_uint64 le_rfl hb']
      omega
    · rw [if_neg hsat, ih (acc + o.value) (by omega) hb']
      omega

end libbitcoin

namespace libbitcoin

/-! ## The claims -/

/-- C8: reset is idempotent; is_valid is false immediately after reset; and
the reset state is the all-default one — zero version, zero locktime, empty
input and output sequences, no cached hash, zero sigops cache. -/
theorem reset_idempotent_and_invalid (tx : Transaction) :
    (tx.reset).reset = tx.reset ∧
    (tx.reset).is_valid = false ∧
    tx.reset = default_transaction :=
  ⟨rfl, rfl, rfl⟩

/-- C7: a transaction is never both a coinbase and an invalid non-coinbase,
and is_invalid_non_coinbase holds exactly when the transaction is not a
coinbase and some input carries a null previous-output reference. -/
theorem coinbase_exclusivity (tx : Transaction) :
    (¬ (tx.is_coinbase = true ∧ tx.is_invalid_non_coinbase = true)) ∧
    (tx.is_invalid_non_coinbase = true ↔
      (tx.is_coinbase = false ∧
        ∃ i ∈ tx.inputs, i.previous_output.is_null = true)) := by
  constructor
  · rintro ⟨hcb, hinv⟩
    simp [Transaction.is_invalid_non_coinbase, hcb] at hinv
  · cases hcb : tx.is_coinbase with
    | false =>
      simp [Transaction.is_invalid_non_coinbase, hcb, List.any_eq_true]
    | true =>
      simp [Transaction.is_invalid_non_coinbase, hcb]

/-- C10: the inputs[0] subscripts inside is_coinbase and is_invalid_coinbase
are always within bounds: the bounds-observing variants never reach their
out-of-bounds branch and agree with the plain ones on every transaction,
including one with no inputs. -/
theorem coinbase_access_in_bounds (tx : Transaction) :
    tx.is_coinbase_checked = some tx.is_coinbase ∧
    tx.is_invalid_coinbase_checked = some tx.is_invalid_coinbase := by
  have h1 : tx.is_coinbase_checked = some tx.is_coinbase := by
    unfold Transaction.is_coinbase_checked Transaction.is_coinbase
    cases hne : tx.inputs with
    | nil => simp
    | cons a as =>
      cases as with
      | nil => simp
      | cons b bs => simp
  refine ⟨h1, ?_⟩
  unfold Transaction.is_invalid_coinbase_checked Transaction.is_invalid_coinbase
  rw [h1]
  cases hcb : tx.is_coinbase with
  | false => simp
  | true =>
    cases hne : tx.inputs with
    | nil =>
      unfold Transaction.is_coinbase at hcb
      rw [hne] at hcb
      simp at hcb
    | cons a as => simp [hne]

/-- C9: move-assignment overwrites version, locktime, inputs and outputs from
the source while leaving the destination's cached-hash and cached-sigops
fields unchanged; in particular a digest cached on the destination before the
assignment is still what hash() returns afterwards, for every source and every
hash primitive. -/
theorem move_assign_preserves_caches (dst src : Transaction) (d : List Nat)
    (bitcoin_hash : List Nat → List Nat) (sI : Input → List Nat)
    (sO : Output → List Nat) :
    (dst.move_assign src).version = src.version ∧
    (dst.move_assign src).locktime = src.locktime ∧
    (dst.move_assign src).inputs = src.inputs ∧
    (dst.move_assign src).outputs = src.outputs ∧
    (dst.move_assign src).hash_ = dst.hash_ ∧
    (dst.move_assign src).sigops_ = dst.sigops_ ∧
    (Transaction.hash bitcoin_hash sI sO
      (Transaction.move_assign { dst with hash_ := some d } src)).1 = d :=
  ⟨rfl, rfl, rfl, rfl, rfl, rfl, rfl⟩

/-- C1: evaluation of signature_operations as written at the failing input — a
fresh transaction whose single input script reports one signature operation.
The two accumulate results are discarded and the function returns the zero
cache, while the spec's description of the routine yields the saturating sum
one. -/
theorem signature_operations_discards_accumulation :
    c1_transaction.signature_operations = 0 ∧
    c1_transaction.signature_operations_spec = 1 := by
  constructor
  · rfl
  · rfl

/-- C4 (amended): is_final behaves exactly as the spec sentence describes once
the below-threshold comparison basis is taken to be block_height truncated to
its low 32 bits by the uint32_t cast, rather than the full 64-bit value. -/
theorem is_final_matches_spec_with_truncated_height (tx : Transaction)
    (block_height block_time : Nat) :
    tx.is_final block_height block_time =
      tx.is_final_spec (block_height % 4294967296) block_time := rfl

/-- C4 counterexample: at locktime 1, block_height 2^32 and block_time 0, the
code truncates the height to 0 and falls through to the non-final input, while
the claimed comparison against the full 64-bit height would report final. -/
theorem is_final_truncation_counterexample :
    c4_transaction.is_final 4294967296 0 = false ∧
    c4_transaction.is_final_spec 4294967296 0 = true := by
  constructor
  · rfl
  · rfl

/-- C6: total_output_value is the saturating sum of the output values: it is
the exact sum whenever that sum is representable in 64 bits, and exactly the
64-bit maximum (not a wrapped value) whenever the sum exceeds it. -/
theorem total_output_value_saturates (tx : Transaction)
    (hb : ∀ o ∈ tx.outputs, o.value ≤ max_uint64) :
    (sum_by Output.value tx.outputs ≤ max_uint64 →
      tx.total_output_value = sum_by Output.value tx.outputs) ∧
    (max_uint64 < sum_by Output.value tx.outputs →
      tx.total_output_value = max_uint64) := by
  have h := sat_foldl_min tx.outputs 0 (by omega) hb
  unfold Transaction.total_output_value
  rw [h]
  omega

/-- C6 witness: two outputs of values 2^64 - 1 and 5 sum beyond the 64-bit
maximum, and total_output_value clamps to exactly the maximum. -/
theorem total_output_value_saturates_witness :
    c6_transaction.total_output_value = max_uint64 :=
  (total_output_value_saturates c6_transaction (by decide)).2 (by decide)

end libbitcoin

namespace libbitcoin.wallet

/-- C5: payment-address equality is the (version, hash) projection equality,
and the std::hash adapter keys on exactly the same projection — the buffer it
hashes is determined by (version, hash) alone — so two addresses equal under
operator== always receive the same hash-table key. -/
theorem payment_address_eq_iff_same_projection (left right : PaymentAddress)
    (string_hash : List Nat → Nat) :
    (payment_address_eq left right = true ↔
      (left.version = right.version ∧ left.hash = right.hash)) ∧
    (std_hash_buffer left = left.version :: left.hash) ∧
    (payment_address_eq left right = true →
      std_hash_key string_hash left = std_hash_key string_hash right) := by
  refine ⟨?_, rfl, ?_⟩
  · simp [payment_address_eq]
  · intro h
    simp only [payment_address_eq, Bool.and_eq_true, beq_iff_eq] at h
    simp [std_hash_key, std_hash_buffer, h.1, h.2]

end libbitcoin.wallet

namespace libbitcoin

/-! ## Round-trip lemmas for the cursor primitives -/

/-- A fixed-width little-endian field is exactly k bytes long. -/
theorem toLE_length (k n : Nat) : (toLE k n).length = k := by
  induction k generalizing n with
  | zero => rfl
  | succ k ih => simp [toLE, ih]

/-- Reading back a fixed-width little-endian field yields the value reduced
modulo 256^k and leaves the trailing bytes unconsumed. -/
theorem readLE_toLE (k n : Nat) (rest : List Nat) :
    readLE k (toLE k n ++ rest) = some (n % 256 ^ k, rest) := by
  induction k generalizing n with
  | zero => simp [toLE, readLE, Nat.mod_one]
  | succ k ih =>
    have step : readLE (k + 1) (toLE (k + 1) n ++ rest) =
        match readLE k (toLE k (n / 256) ++ rest) with
        | none => none
        | some (v, r) => some (n % 256 + 256 * v, r) := rfl
    have hmod : n % 256 ^ (k + 1) = n % 256 + 256 * (n / 256 % 256 ^ k) := by
      rw [pow_succ']
      exact Nat.mod_mul
    rw [step, ih, hmod]

/-- Reading back a 4-byte little-endian field below 2^32 yields the value. -/
theorem read_write_4_bytes (n : Nat) (hn : n < 4294967296) (rest : List Nat) :
    read_4_bytes_little_endian (write_4_bytes_little_endian n ++ rest) =
      some (n, rest) := by
  unfold read_4_bytes_little_endian write_4_bytes_little_endian
  rw [readLE_toLE]
  congr 1
  congr 1
  have : (256 : Nat) ^ 4 = 4294967296 := by norm_num
  rw [this]
  exact Nat.mod_eq_of_lt hn

/-- The compact-size writer emits exactly variable_uint_size bytes. -/
theorem write_variable_uint_length (v : Nat) :
    (write_variable_uint_little_endian v).length = variable_uint_size v := by
  unfold write_variable_uint_little_endian variable_uint_size
  split_ifs <;> simp [toLE_length]

/-- Reading back a compact-size encoding of a value representable in 64 bits
yields the value and leaves the trailing bytes unconsumed. -/
theorem read_write_variable_uint (v : Nat) (hv : v ≤ max_uint64)
    (rest : List Nat) :
    read_variable_uint_little_endian
        (write_variable_uint_little_endian v ++ rest) = some (v, rest) := by
  unfold write_variable_uint_little_endian
  split_ifs with h1 h2 h3
  · show read_variable_uint_little_endian (v :: rest) = some (v, rest)
    simp [read_variable_uint_little_endian, h1]
  · show read_variable_uint_little_endian (253 :: (toLE 2 v ++ rest)) = _
    unfold read_variable_uint_little_endian
    norm_num
    rw [readLE_toLE]
    congr 1
    congr 1
    have : (256 : Nat) ^ 2 = 65536 := by norm_num
    rw [this]
    omega
  · show read_variable_uint_little_endian (254 :: (toLE 4 v ++ rest)) = _
    unfold read_variable_uint_little_endian
    norm_num
    rw [readLE_toLE]
    congr 1
    congr 1
    have : (256 : Nat) ^ 4 = 4294967296 := by norm_num
    rw [this]
    unfold max_uint32 at h3
    omega
  · show read_variable_uint_little_endian (255 :: (toLE 8 v ++ rest)) = _
    unfold read_variable_uint_little_endian
    norm_num
    rw [readLE_toLE]
    congr 1
    congr 1
    have : (256 : Nat) ^ 8 = 18446744073709551616 := by norm_num
    rw [this]
    unfold max_uint64 at hv
    omega

/-- Parsing back exactly the elements a sequence serialized to, given the
element codec's own round trip, yields the sequence and the trailing bytes. -/
theorem parse_count_concat_map {α : Type} (p : List Nat → Option (α × List Nat))
    (s : α → List Nat) (hp : ∀ a rest, p (s a ++ rest) = some (a, rest))
    (l : List α) (rest : List Nat) :
    parse_count p l.length (concat_map s l ++ rest) = some (l, rest) := by
  induction l with
  | nil => rfl
  | cons a l ih =>
    show parse_count p (l.length + 1) ((s a ++ concat_map s l) ++ rest) = _
    rw [List.append_assoc]
    simp only [parse_count, hp, ih]

/-- Per-element sizes that match the element codec sum to the length of the
concatenated serializations. -/
theorem sum_by_eq_concat_map_length {α : Type} (s : α → List Nat)
    (sz : α → Nat) (hsz : ∀ a, sz a = (s a).length) (l : List α) :
    sum_by sz l = (concat_map s l).length := by
  induction l with
  | nil => rfl
  | cons a l ih => simp [sum_by, concat_map, hsz, ih]

/-- The element-roundtrip laws of the demonstration input codec. -/
theorem demo_input_roundtrip (i : Input) (rest : List Nat) :
    demo_input_from_data (demo_input_to_data i ++ rest) = some (i, rest) := by
  obtain ⟨⟨b⟩, seq, ⟨c1, c2, c3, c4⟩⟩ := i
  cases b <;> rfl

/-- The element-roundtrip laws of the demonstration output codec. -/
theorem demo_output_roundtrip (o : Output) (rest : List Nat) :
    demo_output_from_data (demo_output_to_data o ++ rest) = some (o, rest) := by
  obtain ⟨v, ⟨c1, c2, c3, c4⟩⟩ := o
  rfl

/-- Parsing a canonical serialization: from_data_reader consumes exactly the
bytes to_data wrote and reproduces the four wire fields, for any element
codecs satisfying their interface round-trip contract. -/
theorem from_data_reader_to_data (pI : List Nat → Option (Input × List Nat))
    (pO : List Nat → Option (Output × List Nat)) (sI : Input → List Nat)
    (sO : Output → List Nat)
    (hin : ∀ i rest, pI (sI i ++ rest) = some (i, rest))
    (hout : ∀ o rest, pO (sO o ++ rest) = some (o, rest))
    (tx : Transaction) (rest : List Nat)
    (hv : tx.version < 4294967296) (hl : tx.locktime < 4294967296)
    (hni : tx.inputs.length ≤ max_uint64)
    (hno : tx.outputs.length ≤ max_uint64) :
    Transaction.from_data_reader pI pO (tx.to_data sI sO ++ rest) =
      some ({ version := tx.version, locktime := tx.locktime,
              inputs := tx.inputs, outputs := tx.outputs, hash_ := none,
              sigops_ := 0 }, rest) := by
  unfold Transaction.to_data Transaction.from_data_reader
  simp only [List.append_assoc, read_write_4_bytes tx.version hv,
    read_write_variable_uint tx.inputs.length hni,
    parse_count_concat_map pI sI hin,
    read_write_variable_uint tx.outputs.length hno,
    parse_count_concat_map pO sO hout,
    read_write_4_bytes tx.locktime hl]

end libbitcoin

namespace libbitcoin

/-- C2 (amended): the round trip holds in the serialize-then-parse direction,
and the size equality holds outright. For any transaction whose scalar fields
fit their wire widths and any element codecs satisfying their interface
round-trip contract, from_data on to_data's output succeeds, consumes the
whole buffer and reproduces the version, locktime, inputs and outputs (with
the caches cleared, as reset at entry leaves them); and serialized_size equals
the length of the buffer to_data produces. -/
theorem transaction_serialize_then_parse
    (pI : List Nat → Option (Input × List Nat))
    (pO : List Nat → Option (Output × List Nat))
    (sI : Input → List Nat) (sO : Output → List Nat)
    (szI : Input → Nat) (szO : Output → Nat)
    (hin : ∀ i rest, pI (sI i ++ rest) = some (i, rest))
    (hout : ∀ o rest, pO (sO o ++ rest) = some (o, rest))
    (hszI : ∀ i, szI i = (sI i).length)
    (hszO : ∀ o, szO o = (sO o).length)
    (prior tx : Transaction)
    (hv : tx.version < 4294967296) (hl : tx.locktime < 4294967296)
    (hni : tx.inputs.length ≤ max_uint64)
    (hno : tx.outputs.length ≤ max_uint64) :
    prior.from_data pI pO (tx.to_data sI sO) =
      (true, { version := tx.version, locktime := tx.locktime,
               inputs := tx.inputs, outputs := tx.outputs, hash_ := none,
               sigops_ := 0 }) ∧
    tx.serialized_size szI szO = (tx.to_data sI sO).length := by
  constructor
  · have h := from_data_reader_to_data pI pO sI sO hin hout tx [] hv hl hni hno
    rw [List.append_nil] at h
    unfold Transaction.from_data
    rw [h]
  · unfold Transaction.serialized_size Transaction.to_data
    simp only [List.length_append, write_variable_uint_length,
      sum_by_eq_concat_map_length sI szI hszI,
      sum_by_eq_concat_map_length sO szO hszO]
    have l4v : (write_4_bytes_little_endian tx.version).length = 4 :=
      toLE_length 4 _
    have l4l : (write_4_bytes_little_endian tx.locktime).length = 4 :=
      toLE_length 4 _
    omega

/-- C2 witness: the serialize-then-parse round trip and the size equality at a
concrete one-input one-output transaction under the demonstration codecs. -/
theorem transaction_serialize_then_parse_witness :
    Transaction.from_data demo_input_from_data demo_output_from_data
        default_transaction
        (Transaction.to_data demo_input_to_data demo_output_to_data
          c2_transaction) =
      (true, c2_transaction) ∧
    Transaction.serialized_size demo_input_size demo_output_size
        c2_transaction =
      (Transaction.to_data demo_input_to_data demo_output_to_data
        c2_transaction).length :=
  transaction_serialize_then_parse demo_input_from_data demo_output_from_data
    demo_input_to_data demo_output_to_data demo_input_size demo_output_size
    demo_input_roundtrip demo_output_roundtrip (fun _ => rfl) (fun _ => rfl)
    default_transaction c2_transaction (by decide) (by decide) (by decide)
    (by decide)

/-- C2 counterexample: from_data accepts an 11-byte buffer — a canonical empty
transaction followed by one trailing garbage byte — without requiring the
buffer be exhausted, so to_data of the parsed transaction is not the input
buffer and serialized_size is not the input buffer's length. -/
theorem parse_then_serialize_counterexample :
    (Transaction.from_data demo_input_from_data demo_output_from_data
        default_transaction c2_extra_bytes).1 = true ∧
    Transaction.to_data demo_input_to_data demo_output_to_data
        (Transaction.from_data demo_input_from_data demo_output_from_data
          default_transaction c2_extra_bytes).2 ≠ c2_extra_bytes ∧
    Transaction.serialized_size demo_input_size demo_output_size
        (Transaction.from_data demo_input_from_data demo_output_from_data
          default_transaction c2_extra_bytes).2 ≠ c2_extra_bytes.length := by
  refine ⟨rfl, by decide, by decide⟩

/-- C3: whenever from_data reports failure, the resulting state is the
all-default reset state — version 0, locktime 0, no inputs, no outputs, no
cached hash, zero sigops cache — never a partially populated one, whatever the
input bytes, the element parsers and the prior state. -/
theorem from_data_failure_resets (pI : List Nat → Option (Input × List Nat))
    (pO : List Nat → Option (Output × List Nat)) (tx : Transaction)
    (data : List Nat) (hfail : (tx.from_data pI pO data).1 = false) :
    (tx.from_data pI pO data).2 = default_transaction := by
  unfold Transaction.from_data at hfail ⊢
  cases h : Transaction.from_data_reader pI pO data with
  | none => simp [h, Transaction.reset, default_transaction]
  | some v =>
    obtain ⟨parsed, unconsumed⟩ := v
    rw [h] at hfail
    simp at hfail

/-- C3 witness: from_data on the empty byte list fails — the version field is
truncated — and a previously populated transaction comes out in the
all-default state. -/
theorem from_data_failure_resets_witness :
    (Transaction.from_data demo_input_from_data demo_output_from_data
        c1_transaction []).2 = default_transaction :=
  from_data_failure_resets demo_input_from_data demo_output_from_data
    c1_transaction [] (by decide)

end libbitcoin
